import Mathlib

/-!
Shallow embedding of `vscan-backup-file-detector` (`src/main.py`).

The program validates a base URL (via `urllib.parse.urlparse`: accepted
iff scheme and netloc are both non-empty), then for each suffix in an
extension list issues `requests.get(url + ext, allow_redirects=True)`,
calls `response.raise_for_status()` (raising `HTTPError`, a subclass of
`RequestException`, for 4xx/5xx), records the candidate when the final
status is 200, and finally reports results on stdout and optionally
writes them to a file.

The network is modelled as an oracle `String → ReqOutcome` giving, for
each candidate URL, either the final HTTP status after redirects or a
raised `requests.exceptions.RequestException` (connection failure,
timeout, DNS failure, too many redirects).  The filesystem is a map
`String → Option String` from paths to contents; whether a write
succeeds is an oracle `String → Bool` standing for the absence of an
`IOError` (alias of `OSError` in Python 3) when opening/writing.
-/

namespace Vscan

/-- Result of `requests.get(candidate, allow_redirects=True)`:
either a final response with its status code, or a raised
`requests.exceptions.RequestException`. -/
inductive ReqOutcome where
  | ok (status : Nat)
  | err
deriving DecidableEq, Repr

/-- `response.raise_for_status()` raises `HTTPError` exactly when the
status code is in [400, 600) (requests' definition of a bad response). -/
def raisesForStatus (s : Nat) : Bool := 400 ≤ s && s < 600

/-- The body of one loop iteration of `check_backup_files` for a
candidate URL: `True` iff the candidate is appended to `found_files`.
`raise_for_status` raising is caught by the per-candidate
`except requests.exceptions.RequestException` handler, as is a network
error from `get` itself; otherwise the candidate is recorded iff
`response.status_code == 200`. -/
def records (net : String → ReqOutcome) (candidate : String) : Bool :=
  match net candidate with
  | ReqOutcome.ok s => if raisesForStatus s then false else s == 200
  | ReqOutcome.err => false

/-- Whether the try-block of an iteration raises for a candidate:
either `requests.get` itself raises a `RequestException` (connection
failure, timeout, DNS failure, too many redirects), or
`response.raise_for_status()` raises `HTTPError` (also a
`RequestException`) for a non-success 4xx/5xx status.  Both are caught
by the per-candidate handler. -/
def raisesException (net : String → ReqOutcome) (c : String) : Bool :=
  match net c with
  | ReqOutcome.ok s => raisesForStatus s
  | ReqOutcome.err => true

/-- `check_backup_files(url, extensions)` together with its request
trace: first component is `found_files` (in append order), second is
the list of candidate URLs for which an HTTP GET was issued, in order.
Each iteration computes `backup_url = url + ext` (raw concatenation)
and always issues the GET. -/
def check_backup_files_trace (net : String → ReqOutcome) (url : String) :
    List String → List String × List String
  | [] => ([], [])
  | ext :: rest =>
      let backup_url := url ++ ext
      let r := check_backup_files_trace net url rest
      (if records net backup_url then backup_url :: r.1 else r.1,
       backup_url :: r.2)

/-- The return value of `check_backup_files(url, extensions)`. -/
def check_backup_files (net : String → ReqOutcome) (url : String)
    (exts : List String) : List String :=
  (check_backup_files_trace net url exts).1

/-! ### Model of `urllib.parse.urlparse` (scheme / netloc only)

`is_valid_url` only reads `result.scheme` and `result.netloc`, so we
model exactly the scheme/netloc extraction of `urllib.parse.urlsplit`
(which `urlparse` delegates to): strip leading/trailing C0-control and
space characters, remove ASCII tab/newline/CR, split a scheme before
the first `:` when the prefix starts with an ASCII letter and consists
of scheme characters, and read the netloc after a leading `//` up to
the first `/`, `?` or `#`.  A netloc with unbalanced square brackets
raises `ValueError` ("Invalid IPv6 URL"); deeper validation of a
balanced bracketed host is not modelled (no claim involves brackets).
Any raised error is an `Except.error`. -/

/-- Characters stripped from both ends of the URL before parsing
(WHATWG C0 control or space). -/
def isC0OrSpace (c : Char) : Bool := c.toNat ≤ 0x20

/-- ASCII tab, LF and CR are removed everywhere in the URL. -/
def isUnsafeByte (c : Char) : Bool := c == '\t' || c == '\n' || c == '\r'

def stripControlAndSpace (l : List Char) : List Char :=
  ((l.dropWhile isC0OrSpace).reverse.dropWhile isC0OrSpace).reverse

def removeUnsafeBytes (l : List Char) : List Char :=
  l.filter (fun c => !(isUnsafeByte c))

/-- Characters allowed in a URL scheme (after the leading letter):
ASCII letters, digits, `+`, `-`, `.`. -/
def isSchemeChar (c : Char) : Bool := c.isAlphanum || c == '+' || c == '-' || c == '.'

/-- Split at the first `:`; `none` when the string has no colon. -/
def splitAtFirstColon : List Char → Option (List Char × List Char)
  | [] => none
  | c :: cs =>
      if c = ':' then some ([], cs)
      else
        match splitAtFirstColon cs with
        | some (a, b) => some (c :: a, b)
        | none => none

/-- A netloc ends at the first `/`, `?` or `#`. -/
def isNetlocEnd (c : Char) : Bool := c == '/' || c == '?' || c == '#'

/-- The scheme/netloc part of a python `ParseResult`. -/
structure UrlParts where
  scheme : String
  netloc : String
deriving DecidableEq, Repr

/-- Scheme extraction: `if i > 0 and url[0] is an ASCII letter and all
of url[:i] are scheme chars: scheme, url = url[:i].lower(), url[i+1:]`. -/
def splitScheme (l : List Char) : List Char × List Char :=
  match splitAtFirstColon l with
  | some (pre, post) =>
      if !pre.isEmpty && (match pre with | c :: _ => c.isAlpha | [] => false) &&
          pre.all isSchemeChar then
        (pre.map Char.toLower, post)
      else ([], l)
  | none => ([], l)

/-- Model of `urllib.parse.urlparse` restricted to scheme and netloc. -/
def urlparse (url : String) : Except String UrlParts :=
  let l0 := removeUnsafeBytes (stripControlAndSpace url.data)
  let sp := splitScheme l0
  match sp.2 with
  | '/' :: '/' :: r =>
      let netloc := r.takeWhile (fun c => !(isNetlocEnd c))
      if (netloc.contains '[' && !(netloc.contains ']')) ||
         (netloc.contains ']' && !(netloc.contains '[')) then
        Except.error "Invalid IPv6 URL"
      else
        Except.ok ⟨⟨sp.1⟩, ⟨netloc⟩⟩
  | _ => Except.ok ⟨⟨sp.1⟩, ""⟩

/-- `is_valid_url(url)`: `all([result.scheme, result.netloc])` under a
bare `except:` returning `False` (Python truthiness of a string is
non-emptiness). -/
def is_valid_url (url : String) : Bool :=
  match urlparse url with
  | Except.ok r => r.scheme != "" && r.netloc != ""
  | Except.error _ => false

/-! ### CLI surface and `main` -/

/-- The module-level default suffix list `BACKUP_EXTENSIONS`. -/
def BACKUP_EXTENSIONS : List String :=
  [".bak", ".swp", "~", ".old", ".tmp", ".backup", ".orig"]

/-- Parsed command-line arguments.  `argparse` with `nargs='+'` never
produces an empty list for `-e`, so `extensions = some l` has `l ≠ []`
for every actual invocation. -/
structure Args where
  url : String
  verbose : Bool
  output : Option String
  extensions : Option (List String)

/-- `extensions_to_use = args.extensions if args.extensions else
BACKUP_EXTENSIONS` (Python truthiness: `None` and `[]` both fall back
to the default list). -/
def extensions_to_use (a : Option (List String)) : List String :=
  match a with
  | some l => if l.isEmpty then BACKUP_EXTENSIONS else l
  | none => BACKUP_EXTENSIONS

/-- `save_results(filename, results)`: open for writing (truncating),
write each result followed by a newline; an `IOError` is logged via
`logging.error` and swallowed.  Returns the new filesystem and whether
a write error was logged. -/
def save_results (writeOk : String → Bool) (fs : String → Option String)
    (filename : String) (results : List String) :
    (String → Option String) × Bool :=
  if writeOk filename then
    (Function.update fs filename
      (some (String.join (results.map (fun r => r ++ "\n")))), false)
  else (fs, true)

/-- Observable outcome of one run of `main()`. -/
structure RunResult where
  exitCode : Nat
  stdout : List String
  requests : List String
  fs : String → Option String
  writeErrorLogged : Bool

/-- `main()`: validate the URL (exit 1 before any request when
invalid), pick the extension list, run `check_backup_files`, print the
report, and save to the output file only when it is set and results
are non-empty. -/
def run_main (args : Args) (net : String → ReqOutcome)
    (writeOk : String → Bool) (fs : String → Option String) : RunResult :=
  if is_valid_url args.url then
    let exts := extensions_to_use args.extensions
    let found := check_backup_files net args.url exts
    let reqs := (check_backup_files_trace net args.url exts).2
    if found.isEmpty then
      { exitCode := 0, stdout := ["No backup files found."], requests := reqs,
        fs := fs, writeErrorLogged := false }
    else
      match args.output with
      | some p =>
          let w := save_results writeOk fs p found
          { exitCode := 0, stdout := "Possible backup files found:" :: found,
            requests := reqs, fs := w.1, writeErrorLogged := w.2 }
      | none =>
          { exitCode := 0, stdout := "Possible backup files found:" :: found,
            requests := reqs, fs := fs, writeErrorLogged := false }
  else
    { exitCode := 1, stdout := [], requests := [], fs := fs,
      writeErrorLogged := false }

/-! ### Concrete oracles used by witnesses -/

/-- A network where every candidate answers 404. -/
def netAll404 : String → ReqOutcome := fun _ => ReqOutcome.ok 404

/-- A network answering 200 for `http://x.bak` and 404 otherwise. -/
def netBakOnly : String → ReqOutcome :=
  fun c => if c = "http://x.bak" then ReqOutcome.ok 200 else ReqOutcome.ok 404

/-- A network raising a `RequestException` for every candidate except
`http://x.old`, which answers 200. -/
def netErrThenOk : String → ReqOutcome :=
  fun c => if c = "http://x.old" then ReqOutcome.ok 200 else ReqOutcome.err

/-- A filesystem write oracle where every write succeeds. -/
def woTrue : String → Bool := fun _ => true

/-- A filesystem write oracle where every write raises `IOError`. -/
def woFalse : String → Bool := fun _ => false

/-- An empty filesystem. -/
def fsEmpty : String → Option String := fun _ => none

/-! ### Helper lemmas -/

/-- A candidate is appended to `found_files` exactly when the GET
returns (without a `RequestException`) a final status of 200: a 4xx/5xx
status makes `raise_for_status` raise, any other non-200 status fails
the `== 200` test. -/
theorem records_eq_true_iff (net : String → ReqOutcome) (c : String) :
    records net c = true ↔ net c = ReqOutcome.ok 200 := by
  cases h : net c with
  | ok s =>
      simp only [records, h, raisesForStatus, ReqOutcome.ok.injEq]
      by_cases hs : (400 ≤ s && decide (s < 600)) = true
      · rw [if_pos hs]
        simp only [Bool.and_eq_true, decide_eq_true_eq] at hs
        constructor
        · intro hf; cases hf
        · intro h200; omega
      · rw [if_neg hs]
        simp
  | err => simp [records, h]

/-- The loop returns exactly the candidates whose probe records them,
preserving order. -/
theorem check_backup_files_eq_filter (net : String → ReqOutcome) (url : String)
    (exts : List String) :
    check_backup_files net url exts =
      (exts.map (fun e => url ++ e)).filter (fun c => records net c) := by
  induction exts with
  | nil => rfl
  | cons e rest ih =>
      simp only [check_backup_files, check_backup_files_trace, List.map_cons,
        List.filter_cons] at *
      by_cases hr : records net (url ++ e) = true
      · simp [hr, ih]
      · simp only [Bool.not_eq_true] at hr
        simp [hr, ih]

/-- The loop issues one GET per suffix, in list order, to the raw
concatenation of the base URL and the suffix. -/
theorem trace_requests_eq_map (net : String → ReqOutcome) (url : String)
    (exts : List String) :
    (check_backup_files_trace net url exts).2 = exts.map (fun e => url ++ e) := by
  induction exts with
  | nil => rfl
  | cons e rest ih => simp [check_backup_files_trace, ih]

/-- String concatenation is left-cancellative. -/
theorem string_append_left_cancel {u a b : String} (h : u ++ a = u ++ b) : a = b := by
  have hd : (u ++ a).data = (u ++ b).data := by rw [h]
  rw [String.data_append, String.data_append] at hd
  exact String.ext (List.append_cancel_left hd)

/-- When the URL is valid, `main` finishes normally (exit status 0) in
every branch of the reporting phase. -/
theorem exitCode_eq_zero_of_valid (args : Args) (net : String → ReqOutcome)
    (writeOk : String → Bool) (fs : String → Option String)
    (hv : is_valid_url args.url = true) :
    (run_main args net writeOk fs).exitCode = 0 := by
  simp only [run_main, hv, if_true]
  split
  · rfl
  · cases args.output <;> rfl

/-- When the URL is valid, the requests issued are exactly one GET per
chosen suffix, in order. -/
theorem requests_of_valid (args : Args) (net : String → ReqOutcome)
    (writeOk : String → Bool) (fs : String → Option String)
    (hv : is_valid_url args.url = true) :
    (run_main args net writeOk fs).requests =
      (extensions_to_use args.extensions).map (fun e => args.url ++ e) := by
  simp only [run_main, hv, if_true]
  split
  · exact trace_requests_eq_map net args.url _
  · cases args.output <;> exact trace_requests_eq_map net args.url _

/-! ### Claims -/

/-- Claim C1: a probed candidate is recorded as found iff the final
HTTP response status (after redirects) is exactly 200; any other
status, or a raised request error, is never recorded; and the result
list is exactly the in-order filter of the candidates by that test. -/
theorem recorded_iff_final_status_200 (net : String → ReqOutcome) (url : String)
    (exts : List String) :
    check_backup_files net url exts =
      (exts.map (fun e => url ++ e)).filter (fun c => records net c) ∧
    ∀ c : String, records net c = true ↔ net c = ReqOutcome.ok 200 :=
  ⟨check_backup_files_eq_filter net url exts, fun c => records_eq_true_iff net c⟩

/-- Claim C2: each candidate URL is the raw concatenation of the base
URL and the suffix, probed sequentially in list order, and the result
is an ordered subsequence of the candidate list. -/
theorem candidates_raw_concat_ordered (net : String → ReqOutcome) (url : String)
    (exts : List String) :
    (check_backup_files_trace net url exts).2 = exts.map (fun e => url ++ e) ∧
    (check_backup_files net url exts).Sublist (exts.map (fun e => url ++ e)) := by
  refine ⟨trace_requests_eq_map net url exts, ?_⟩
  rw [check_backup_files_eq_filter]
  exact List.filter_sublist _

/-- Claim C3: a URL is accepted iff parsing yields a non-empty scheme
and a non-empty network location (a parse error yields invalid); on an
invalid URL the run exits with status 1 having issued no request, and
on a valid URL the run completes with exit status 0. -/
theorem valid_url_iff_parse_and_exit_codes (args : Args) (net : String → ReqOutcome)
    (writeOk : String → Bool) (fs : String → Option String) :
    (is_valid_url args.url = true ↔
      ∃ r : UrlParts, urlparse args.url = Except.ok r ∧
        r.scheme ≠ "" ∧ r.netloc ≠ "") ∧
    (is_valid_url args.url = false →
      (run_main args net writeOk fs).exitCode = 1 ∧
      (run_main args net writeOk fs).requests = []) ∧
    (is_valid_url args.url = true →
      (run_main args net writeOk fs).exitCode = 0) := by
  refine ⟨?_, ?_, fun hv => exitCode_eq_zero_of_valid args net writeOk fs hv⟩
  · unfold is_valid_url
    cases h : urlparse args.url with
    | ok r => simp [h, bne_iff_ne]
    | error e => simp [h]
  · intro hv
    simp [run_main, hv]

/-- Witness for C3 at concrete inputs: `"not a url"` exits with status
1, `"http://example.com"` with status 0. -/
theorem valid_url_iff_parse_and_exit_codes_witness :
    (run_main ⟨"not a url", false, none, none⟩ netAll404 woTrue fsEmpty).exitCode = 1 ∧
    (run_main ⟨"not a url", false, none, none⟩ netAll404 woTrue fsEmpty).requests = [] ∧
    (run_main ⟨"http://example.com", false, none, none⟩ netAll404 woTrue fsEmpty).exitCode = 0 := by
  refine ⟨?_, ?_, ?_⟩
  · exact ((valid_url_iff_parse_and_exit_codes ⟨"not a url", false, none, none⟩
      netAll404 woTrue fsEmpty).2.1 (by decide)).1
  · exact ((valid_url_iff_parse_and_exit_codes ⟨"not a url", false, none, none⟩
      netAll404 woTrue fsEmpty).2.1 (by decide)).2
  · exact (valid_url_iff_parse_and_exit_codes ⟨"http://example.com", false, none, none⟩
      netAll404 woTrue fsEmpty).2.2 (by decide)

/-- Claim C4: a per-candidate error — a `RequestException` raised by
the GET itself (connection failure, timeout, DNS failure) or the
`HTTPError` raised by `raise_for_status` for a non-success 4xx/5xx
status — is absorbed for that candidate only: every suffix is still
probed, the result is still the in-order filter by the recording test
(so later suffixes can still be found), the erroring candidate itself
is never recorded, and the exit status of a run on a valid URL is
still 0. -/
theorem network_error_isolated (net : String → ReqOutcome) (url : String)
    (exts : List String) (i : Nat) (hi : i < exts.length)
    (herr : raisesException net (url ++ exts.get ⟨i, hi⟩) = true) :
    (check_backup_files_trace net url exts).2 = exts.map (fun e => url ++ e) ∧
    check_backup_files net url exts =
      (exts.map (fun e => url ++ e)).filter (fun c => records net c) ∧
    (url ++ exts.get ⟨i, hi⟩) ∉ check_backup_files net url exts ∧
    ∀ args : Args, ∀ writeOk : String → Bool, ∀ fs : String → Option String,
      args.url = url → is_valid_url url = true →
      (run_main args net writeOk fs).exitCode = 0 := by
  refine ⟨trace_requests_eq_map net url exts,
    check_backup_files_eq_filter net url exts, ?_, ?_⟩
  · rw [check_backup_files_eq_filter]
    intro hmem
    have hrec := List.of_mem_filter hmem
    rw [records_eq_true_iff] at hrec
    unfold raisesException at herr
    rw [hrec] at herr
    cases herr
  · intro args writeOk fs hurl hv
    subst hurl
    exact exitCode_eq_zero_of_valid args net writeOk fs hv

/-- Witness for C4, covering both error kinds.  With a connection
error on the first suffix and a 200 on the second, the first candidate
is not recorded while the second still is; likewise with an
`HTTPError`-raising 404 on the first suffix and a 200 on the second. -/
theorem network_error_isolated_witness :
    (("http://x" ++ ".bak") ∉ check_backup_files netErrThenOk "http://x" [".bak", ".old"] ∧
     check_backup_files netErrThenOk "http://x" [".bak", ".old"] = ["http://x.old"]) ∧
    (("http://x" ++ ".tmp") ∉ check_backup_files netBakOnly "http://x" [".tmp", ".bak"] ∧
     check_backup_files netBakOnly "http://x" [".tmp", ".bak"] = ["http://x.bak"]) := by
  have h1 := network_error_isolated netErrThenOk "http://x" [".bak", ".old"] 0
    (by decide) (by decide)
  have h2 := network_error_isolated netBakOnly "http://x" [".tmp", ".bak"] 0
    (by decide) (by decide)
  exact ⟨⟨h1.2.2.1, by decide⟩, ⟨h2.2.2.1, by decide⟩⟩

/-- Claim C5: when the scan finds nothing, the filesystem is left
untouched, whatever the output-path argument was. -/
theorem no_results_no_file_write (args : Args) (net : String → ReqOutcome)
    (writeOk : String → Bool) (fs : String → Option String)
    (h : check_backup_files net args.url (extensions_to_use args.extensions) = []) :
    (run_main args net writeOk fs).fs = fs := by
  unfold run_main
  split
  · simp [h]
  · rfl

/-- Witness for C5: an all-404 network finds nothing and the (empty)
filesystem is unchanged even though an output path was supplied. -/
theorem no_results_no_file_write_witness :
    check_backup_files netAll404 "http://x"
      (extensions_to_use (some [".bak"])) = [] ∧
    (run_main ⟨"http://x", false, some "out.txt", some [".bak"]⟩
      netAll404 woTrue fsEmpty).fs = fsEmpty :=
  ⟨by decide,
   no_results_no_file_write ⟨"http://x", false, some "out.txt", some [".bak"]⟩
     netAll404 woTrue fsEmpty (by decide)⟩

/-- Claim C6: with an output path and a non-empty result, a successful
write replaces the file's content with exactly the found URLs, one per
line, each newline-terminated, regardless of previous content; a
failed write leaves the filesystem unchanged and is logged as an
error; either way the exit status is 0 and the console report (header
plus found URLs) was produced. -/
theorem output_file_contents_and_write_failure (args : Args)
    (net : String → ReqOutcome) (writeOk : String → Bool)
    (fs : String → Option String) (p : String)
    (hp : args.output = some p) (hv : is_valid_url args.url = true)
    (hf : check_backup_files net args.url (extensions_to_use args.extensions) ≠ []) :
    ((run_main args net writeOk fs).stdout =
      "Possible backup files found:" ::
        check_backup_files net args.url (extensions_to_use args.extensions)) ∧
    (run_main args net writeOk fs).exitCode = 0 ∧
    (writeOk p = true →
      (run_main args net writeOk fs).fs =
        Function.update fs p (some (String.join
          ((check_backup_files net args.url (extensions_to_use args.extensions)).map
            (fun r => r ++ "\n"))))) ∧
    (writeOk p = false →
      (run_main args net writeOk fs).fs = fs ∧
      (run_main args net writeOk fs).writeErrorLogged = true) := by
  have hne : (check_backup_files net args.url
      (extensions_to_use args.extensions)).isEmpty = false := by
    cases hc : check_backup_files net args.url (extensions_to_use args.extensions) with
    | nil => exact absurd hc hf
    | cons a l => rfl
  refine ⟨?_, ?_, ?_, ?_⟩
  · simp [run_main, hv, hp, hne]
  · exact exitCode_eq_zero_of_valid args net writeOk fs hv
  · intro hw
    simp [run_main, hv, hp, hne, save_results, hw]
  · intro hw
    constructor
    · simp [run_main, hv, hp, hne, save_results, hw]
    · simp [run_main, hv, hp, hne, save_results, hw]

/-- Witness for C6: one found URL, written as a single
newline-terminated line on success; failure logged with the
filesystem unchanged. -/
theorem output_file_contents_and_write_failure_witness :
    (run_main ⟨"http://x", false, some "out.txt", some [".bak"]⟩
        netBakOnly woTrue fsEmpty).fs =
      Function.update fsEmpty "out.txt" (some (String.join
        ((check_backup_files netBakOnly "http://x"
          (extensions_to_use (some [".bak"]))).map (fun r => r ++ "\n")))) ∧
    (run_main ⟨"http://x", false, some "out.txt", some [".bak"]⟩
        netBakOnly woFalse fsEmpty).fs = fsEmpty ∧
    (run_main ⟨"http://x", false, some "out.txt", some [".bak"]⟩
        netBakOnly woFalse fsEmpty).writeErrorLogged = true := by
  have h1 := output_file_contents_and_write_failure
    ⟨"http://x", false, some "out.txt", some [".bak"]⟩ netBakOnly woTrue fsEmpty
    "out.txt" rfl (by decide) (by decide)
  have h2 := output_file_contents_and_write_failure
    ⟨"http://x", false, some "out.txt", some [".bak"]⟩ netBakOnly woFalse fsEmpty
    "out.txt" rfl (by decide) (by decide)
  exact ⟨h1.2.2.1 rfl, (h2.2.2.2 rfl).1, (h2.2.2.2 rfl).2⟩

/-- Claim C7: a supplied `-e` list (always non-empty under argparse's
`nargs='+'`) fully replaces the default list: the probed candidates
are exactly the supplied suffixes appended to the URL, and no suffix
outside the supplied list is ever probed; with no `-e`, exactly the 7
default suffixes are probed in their listed order. -/
theorem custom_extension_list_overrides (args : Args) (net : String → ReqOutcome)
    (writeOk : String → Bool) (fs : String → Option String)
    (hv : is_valid_url args.url = true) :
    (∀ exts : List String, args.extensions = some exts → exts ≠ [] →
      (run_main args net writeOk fs).requests = exts.map (fun e => args.url ++ e) ∧
      ∀ s : String, s ∉ exts →
        (args.url ++ s) ∉ (run_main args net writeOk fs).requests) ∧
    (args.extensions = none →
      (run_main args net writeOk fs).requests =
        BACKUP_EXTENSIONS.map (fun e => args.url ++ e)) ∧
    BACKUP_EXTENSIONS = [".bak", ".swp", "~", ".old", ".tmp", ".backup", ".orig"] := by
  refine ⟨?_, ?_, rfl⟩
  · intro exts he hne
    have hu : extensions_to_use args.extensions = exts := by
      rw [he]
      unfold extensions_to_use
      cases hc : exts with
      | nil => exact absurd hc hne
      | cons a l => rfl
    have hreq := requests_of_valid args net writeOk fs hv
    rw [hu] at hreq
    refine ⟨hreq, ?_⟩
    intro s hs hmem
    rw [hreq] at hmem
    obtain ⟨e, he', heq⟩ := List.mem_map.mp hmem
    exact hs (string_append_left_cancel heq ▸ he')
  · intro he
    have hreq := requests_of_valid args net writeOk fs hv
    rw [he] at hreq
    exact hreq

/-- Witness for C7: with `-e .zzz`, only `http://x.zzz` is probed and
the default-only candidate `http://x.bak` is not. -/
theorem custom_extension_list_overrides_witness :
    (run_main ⟨"http://x", false, none, some [".zzz"]⟩
        netAll404 woTrue fsEmpty).requests = ["http://x.zzz"] ∧
    ("http://x" ++ ".bak") ∉ (run_main ⟨"http://x", false, none, some [".zzz"]⟩
        netAll404 woTrue fsEmpty).requests := by
  have h := (custom_extension_list_overrides ⟨"http://x", false, none, some [".zzz"]⟩
    netAll404 woTrue fsEmpty (by decide)).1 [".zzz"] rfl (by decide)
  refine ⟨by rw [h.1]; rfl, h.2 ".bak" (by decide)⟩

/-- Claim C8: on a valid URL, a non-empty result is printed as a
header line followed by each found URL on its own line in order, and
an empty result is printed as the single "none found" message. -/
theorem stdout_report (args : Args) (net : String → ReqOutcome)
    (writeOk : String → Bool) (fs : String → Option String)
    (hv : is_valid_url args.url = true) :
    (check_backup_files net args.url (extensions_to_use args.extensions) ≠ [] →
      (run_main args net writeOk fs).stdout =
        "Possible backup files found:" ::
          check_backup_files net args.url (extensions_to_use args.extensions)) ∧
    (check_backup_files net args.url (extensions_to_use args.extensions) = [] →
      (run_main args net writeOk fs).stdout = ["No backup files found."]) := by
  constructor
  · intro hf
    have hne : (check_backup_files net args.url
        (extensions_to_use args.extensions)).isEmpty = false := by
      cases hc : check_backup_files net args.url (extensions_to_use args.extensions) with
      | nil => exact absurd hc hf
      | cons a l => rfl
    simp only [run_main, hv, if_true, hne, Bool.false_eq_true, if_false]
    cases args.output <;> rfl
  · intro hf
    simp [run_main, hv, hf]

/-- Witness for C8: the header followed by the single found URL in one
run, the "none found" message in an all-404 run. -/
theorem stdout_report_witness :
    (run_main ⟨"http://x", false, none, some [".bak"]⟩
        netBakOnly woTrue fsEmpty).stdout =
      ["Possible backup files found:", "http://x.bak"] ∧
    (run_main ⟨"http://x", false, none, some [".bak"]⟩
        netAll404 woTrue fsEmpty).stdout = ["No backup files found."] := by
  have h1 := (stdout_report ⟨"http://x", false, none, some [".bak"]⟩
    netBakOnly woTrue fsEmpty (by decide)).1 (by decide)
  have h2 := (stdout_report ⟨"http://x", false, none, some [".bak"]⟩
    netAll404 woTrue fsEmpty (by decide)).2 (by decide)
  exact ⟨by rw [h1]; rfl, h2⟩

/-- Claim C9: no deduplication: every occurrence of a suffix is probed
as its own GET, and a suffix whose candidate answers 200 contributes
one copy of the candidate to the result per occurrence in the list. -/
theorem duplicate_suffixes_not_deduplicated (net : String → ReqOutcome)
    (url : String) (exts : List String) (ext : String)
    (h : net (url ++ ext) = ReqOutcome.ok 200) :
    (check_backup_files_trace net url exts).2 = exts.map (fun e => url ++ e) ∧
    (check_backup_files net url exts).count (url ++ ext) = exts.count ext := by
  refine ⟨trace_requests_eq_map net url exts, ?_⟩
  rw [check_backup_files_eq_filter]
  rw [List.count_filter ((records_eq_true_iff net (url ++ ext)).mpr h)]
  exact List.count_map_of_injective exts (fun e => url ++ e)
    (fun a b hab => string_append_left_cancel hab) ext

/-- Witness for C9: a duplicated successful suffix yields the
candidate twice in the result. -/
theorem duplicate_suffixes_not_deduplicated_witness :
    check_backup_files netBakOnly "http://x" [".bak", ".bak"] =
      ["http://x.bak", "http://x.bak"] ∧
    (check_backup_files netBakOnly "http://x" [".bak", ".bak"]).count
      ("http://x" ++ ".bak") = [".bak", ".bak"].count ".bak" := by
  have h := duplicate_suffixes_not_deduplicated netBakOnly "http://x"
    [".bak", ".bak"] ".bak" (by decide)
  exact ⟨by decide, h.2⟩

/-- Claim C10: validation does not restrict the scheme: any string
parsing to a non-empty scheme and a non-empty netloc is accepted. -/
theorem scheme_not_restricted (url : String) (r : UrlParts)
    (h : urlparse url = Except.ok r) (hs : r.scheme ≠ "") (hn : r.netloc ≠ "") :
    is_valid_url url = true := by
  unfold is_valid_url
  rw [h]
  simp [bne_iff_ne, hs, hn]

/-- Witness for C10: `ftp://host` is accepted and proceeds to probing. -/
theorem scheme_not_restricted_witness :
    is_valid_url "ftp://host" = true ∧
    (run_main ⟨"ftp://host", false, none, some [".bak"]⟩
        netAll404 woTrue fsEmpty).requests = ["ftp://host.bak"] := by
  have h := scheme_not_restricted "ftp://host" ⟨"ftp", "host"⟩ rfl
    (by decide) (by decide)
  exact ⟨h, by decide⟩

end Vscan
